import Mathlib

/-!
Verification of the barcode-scanner event pipeline (`src/main.go`): the
keycode-to-character translation `processCharacter` and the timer-driven
segmenter loop `processEvents`, embedded shallowly as pure Lean functions.

The event loop is modelled as a step function on the segmenter state
(accumulated buffer and the `capNext` modifier flag); its two `select`
branches become the two constructors of `SegInput` (an incoming raw event,
or the idle-timer expiry).  Whether the step re-arms the timer is recorded
in the `rearm` field of the step result.  The external evdev keycode table
is a parameter `keymap : Nat → Option String`.
-/

namespace USBScanner

/-- A raw evdev input event: `value` is the action (0 = UP, 1 = DOWN,
2 = REPEAT), `type` is the event kind (1 = `EV_KEY`), `code` the raw key
code. -/
structure InputEvent where
  value : Nat
  type : Nat
  code : Nat
deriving DecidableEq

/-- The evdev event-kind constant `EV_KEY`. -/
def EV_KEY : Nat := 1

/-- Go's `strings.Contains s pat`: `pat` occurs contiguously inside `s`. -/
def containsStr (s pat : String) : Bool :=
  decide (pat.data <:+: s.data)

/-- Go's `strings.ToLower`: lower-case every character. -/
def toLowerStr (s : String) : String :=
  ⟨s.data.map Char.toLower⟩

/-- Go's `strings.TrimPrefix key "KEY_"`: drop the leading `"KEY_"` when
present, otherwise return the string unchanged. -/
def trimKeyPfx (key : String) : String :=
  if "KEY_".data.isPrefixOf key.data then ⟨key.data.drop 4⟩ else key

/-- The `switch` substitution table at the end of `processCharacter`
(src/main.go lines 45-61): fixed token-to-literal replacements, everything
else passes through. -/
def substTable (key : String) : String :=
  if key = "space" then " "
  else if key = "slash" then "/"
  else if key = "minus" then "-"
  else if key = "dot" then "."
  else if key = "comma" then ","
  else if key = "SEMICOLON" then ":"
  else if key = "semicolon" then ";"
  else key

/-- The shift test opening `processCharacter` (src/main.go line 35): the
symbolic name contains `"LEFTSHIFT"` or `"RIGHTSHIFT"` as a substring. -/
def isShiftKey (key : String) : Bool :=
  containsStr key "LEFTSHIFT" || containsStr key "RIGHTSHIFT"

/-- `processCharacter` (src/main.go lines 34-64): translate a symbolic key
name plus the current `capNext` flag into the emitted string and the next
`capNext` flag.  Shift keys emit `""` and set the flag; otherwise the
`"KEY_"` tag is stripped, the token is lower-cased unless the flag is
consumed, and the substitution table is applied. -/
def processCharacter (key : String) (capNext : Bool) : String × Bool :=
  if isShiftKey key then
    ("", true)
  else if !capNext then
    (substTable (toLowerStr (trimKeyPfx key)), capNext)
  else
    (substTable (trimKeyPfx key), false)

/-- One input to the segmenter loop: either a raw event arriving on the
event channel, or the idle timer firing. -/
inductive SegInput where
  | ev (e : InputEvent)
  | timeout
deriving DecidableEq

/-- The mutable state of `processEvents`: the accumulated barcode buffer
and the shift flag. -/
structure SegState where
  barcode : String
  capNext : Bool
deriving DecidableEq

/-- The state `processEvents` starts in: empty buffer, `capNext = false`. -/
def initState : SegState := ⟨"", false⟩

/-- Result of one iteration of the `processEvents` loop: the updated state,
the barcode sent on the output channel (if any), and whether
`timeout.Reset` was called. -/
structure StepResult where
  state : SegState
  out : Option String
  rearm : Bool
deriving DecidableEq

/-- The keycode lookup in src/main.go lines 80-85: consult the evdev table,
substituting `"?"` when the code is absent. -/
def lookupKey (keymap : Nat → Option String) (code : Nat) : String :=
  match keymap code with
  | some v => v
  | none => "?"

/-- One iteration of the `select` loop of `processEvents` (src/main.go
lines 76-96), as a function of the current state and the input that
arrived. -/
def processEventsStep (keymap : Nat → Option String) (s : SegState) :
    SegInput → StepResult
  | .ev e =>
    if e.value = 1 ∧ e.type = EV_KEY then
      ⟨⟨s.barcode ++ (processCharacter (lookupKey keymap e.code) s.capNext).1,
        (processCharacter (lookupKey keymap e.code) s.capNext).2⟩, none, true⟩
    else ⟨s, none, false⟩
  | .timeout =>
    if s.barcode.length > 0 then
      ⟨⟨"", false⟩, some s.barcode, false⟩
    else ⟨s, none, false⟩

/-- Iterate `processEventsStep` over a list of inputs, collecting every
barcode sent on the output channel, in order. -/
def processEventsRun (keymap : Nat → Option String) :
    SegState → List SegInput → SegState × List String
  | s, [] => (s, [])
  | s, i :: rest =>
    ((processEventsRun keymap (processEventsStep keymap s i).state rest).1,
     (processEventsStep keymap s i).out.toList ++
       (processEventsRun keymap (processEventsStep keymap s i).state rest).2)

/-- Concatenation of a list of strings in order. -/
def joinAll : List String → String
  | [] => ""
  | x :: xs => x ++ joinAll xs

/-- The spec's "base character" of a symbolic key name: the name with the
`"KEY_"` tag stripped, lower-cased, with substitution-table tokens replaced
by their literal characters. -/
def specBaseChar (k : String) : String :=
  substTable (toLowerStr (trimKeyPfx k))

/-- Modelled from the spec: a fragment of the external KeycodeTable (the
evdev `KEY` map, which lives in the evdev library outside this repository),
mapping a raw integer code to its symbolic key name. -/
def keyTable : Nat → Option String := fun c =>
  if c = 12 then some "KEY_MINUS"
  else if c = 18 then some "KEY_E"
  else if c = 23 then some "KEY_I"
  else if c = 24 then some "KEY_O"
  else if c = 28 then some "KEY_ENTER"
  else if c = 30 then some "KEY_A"
  else if c = 35 then some "KEY_H"
  else if c = 38 then some "KEY_L"
  else if c = 42 then some "KEY_LEFTSHIFT"
  else if c = 48 then some "KEY_B"
  else none

/-- A string has positive length exactly when it is not the empty string. -/
theorem string_length_pos_iff (s : String) : 0 < s.length ↔ s ≠ "" := by
  rw [String.length, List.length_pos]
  constructor
  · intro h he
    exact h (congrArg String.data he)
  · intro h hd
    cases s
    exact h (congrArg String.mk hd)

/-- A non-shift key processed with `capNext = false` yields exactly the
spec's base character, and leaves the flag false. -/
theorem processCharacter_of_noShift (key : String) (h : isShiftKey key = false) :
    processCharacter key false = (specBaseChar key, false) := by
  simp [processCharacter, h, specBaseChar]

/-- A shift key sets the flag and emits the empty string, whatever the
incoming flag was. -/
theorem processCharacter_of_shift (key : String) (b : Bool)
    (h : isShiftKey key = true) :
    processCharacter key b = ("", true) := by
  simp [processCharacter, h]

/-- The placeholder `"?"` passes through `processCharacter` unchanged and
clears the flag, whatever the incoming flag was. -/
theorem processCharacter_qmark (b : Bool) :
    processCharacter "?" b = ("?", false) := by
  cases b <;> decide

/-- The timer-expiry branch of the loop, written as one equation: a no-op
on an empty buffer, otherwise emit the buffer and reset all state. -/
theorem timeoutStep_eq (keymap : Nat → Option String) (s : SegState) :
    processEventsStep keymap s SegInput.timeout
      = if s.barcode = "" then ⟨s, none, false⟩
        else ⟨⟨"", false⟩, some s.barcode, false⟩ := by
  by_cases h : s.barcode = ""
  · have hlen : ¬ s.barcode.length > 0 := by
      rw [h]; decide
    rw [if_pos h]
    simp [processEventsStep, hlen]
  · have hlen : s.barcode.length > 0 := (string_length_pos_iff s.barcode).mpr h
    rw [if_neg h]
    simp [processEventsStep, hlen]

/-- An event-channel step never sends anything on the output channel. -/
theorem evStep_out (keymap : Nat → Option String) (s : SegState) (e : InputEvent) :
    (processEventsStep keymap s (SegInput.ev e)).out = none := by
  by_cases h : e.value = 1 ∧ e.type = EV_KEY <;> simp [processEventsStep, h]

/-- Running the loop over concatenated input lists runs them in sequence. -/
theorem run_append (keymap : Nat → Option String) (s : SegState)
    (xs ys : List SegInput) :
    processEventsRun keymap s (xs ++ ys)
      = ((processEventsRun keymap (processEventsRun keymap s xs).1 ys).1,
         (processEventsRun keymap s xs).2
           ++ (processEventsRun keymap (processEventsRun keymap s xs).1 ys).2) := by
  induction xs generalizing s with
  | nil => simp [processEventsRun]
  | cons x xs ih => simp [processEventsRun, ih]

/-- A run consisting only of raw events emits no barcode. -/
theorem run_ev_no_out (keymap : Nat → Option String) (es : List InputEvent)
    (s : SegState) :
    (processEventsRun keymap s (es.map SegInput.ev)).2 = [] := by
  induction es generalizing s with
  | nil => simp [processEventsRun]
  | cons e es ih => simp [processEventsRun, evStep_out, ih]

/-- Running a single timer expiry: no-op on an empty buffer, otherwise the
buffer is emitted and the state returns to the initial one. -/
theorem run_single_timeout (keymap : Nat → Option String) (s : SegState) :
    processEventsRun keymap s [SegInput.timeout]
      = if s.barcode = "" then (s, []) else (initState, [s.barcode]) := by
  by_cases h : s.barcode = "" <;>
    simp [processEventsRun, timeoutStep_eq, h, initState]

/-- Key-down events of non-shift keys starting from a cleared flag simply
append the spec base characters, leaving the flag cleared and emitting
nothing. -/
theorem run_noShift (keymap : Nat → Option String) (codes : List Nat)
    (b : String)
    (hshift : ∀ c ∈ codes, isShiftKey (lookupKey keymap c) = false) :
    processEventsRun keymap ⟨b, false⟩
        (codes.map fun c => SegInput.ev ⟨1, EV_KEY, c⟩)
      = (⟨b ++ joinAll (codes.map fun c => specBaseChar (lookupKey keymap c)),
          false⟩, []) := by
  induction codes generalizing b with
  | nil => simp [processEventsRun, joinAll]
  | cons c cs ih =>
    have hc : isShiftKey (lookupKey keymap c) = false :=
      hshift c (List.mem_cons_self c cs)
    have hcs : ∀ x ∈ cs, isShiftKey (lookupKey keymap x) = false :=
      fun x hx => hshift x (List.mem_cons_of_mem c hx)
    simp only [List.map_cons, processEventsRun, processEventsStep,
      processCharacter_of_noShift _ hc, EV_KEY, and_self, if_pos,
      joinAll]
    simp only [EV_KEY] at ih
    rw [ih _ hcs]
    simp [String.append_assoc]

/-- Claim C1: for every sequence of key-down events (kind KEY, action DOWN)
whose symbolic keys involve no shift key, the barcode emitted at the
following timeout equals the lower-cased concatenation of each key's base
character (the symbolic name with the `"KEY_"` tag stripped, lower-cased,
with substitution-table tokens replaced by their literal characters), in
event order. -/
theorem claim_C1_thm (keymap : Nat → Option String) (codes : List Nat)
    (hshift : ∀ c ∈ codes, isShiftKey (lookupKey keymap c) = false)
    (hne : joinAll (codes.map fun c => specBaseChar (lookupKey keymap c)) ≠ "") :
    (processEventsRun keymap initState
        ((codes.map fun c => SegInput.ev ⟨1, EV_KEY, c⟩) ++ [SegInput.timeout])).2
      = [joinAll (codes.map fun c => specBaseChar (lookupKey keymap c))] := by
  rw [run_append]
  have hrun := run_noShift keymap codes "" hshift
  rw [show initState = (⟨"", false⟩ : SegState) from rfl, hrun]
  simp [run_single_timeout, hne]

/-- Witness for C1: the five key-down events for H, E, L, L, O followed by
a timeout emit exactly the one barcode "hello". -/
theorem claim_C1_witness :
    (∀ c ∈ ([35, 18, 38, 38, 24] : List Nat),
        isShiftKey (lookupKey keyTable c) = false) ∧
    joinAll (([35, 18, 38, 38, 24] : List Nat).map
        fun c => specBaseChar (lookupKey keyTable c)) ≠ "" ∧
    (processEventsRun keyTable initState
        ((([35, 18, 38, 38, 24] : List Nat).map
            fun c => SegInput.ev ⟨1, EV_KEY, c⟩) ++ [SegInput.timeout])).2
      = [joinAll (([35, 18, 38, 38, 24] : List Nat).map
          fun c => specBaseChar (lookupKey keyTable c))] :=
  ⟨by decide, by decide,
    claim_C1_thm keyTable [35, 18, 38, 38, 24] (by decide) (by decide)⟩

/-- Claim C2: a barcode is never emitted empty — on every timer expiry an
emission happens if and only if the buffer is non-empty, and an expiry on
an empty buffer changes nothing and produces no output. -/
theorem claim_C2_thm (keymap : Nat → Option String) (s : SegState) :
    ((processEventsStep keymap s SegInput.timeout).out.isSome = true
        ↔ s.barcode ≠ "") ∧
    processEventsStep keymap s SegInput.timeout
      = if s.barcode = "" then ⟨s, none, false⟩
        else ⟨⟨"", false⟩, some s.barcode, false⟩ := by
  refine ⟨?_, timeoutStep_eq keymap s⟩
  by_cases h : s.barcode = "" <;> simp [timeoutStep_eq, h]

/-- Counterexample to claim C3 as stated: a left-shift key-down from the
initial (empty-buffer) state followed immediately by a timer expiry leaves
`capNext = true`, and the first character of the next scan comes out
capitalized ("H" instead of "h"). -/
theorem claim_C3_counterexample :
    (processEventsRun keyTable initState
        [SegInput.ev ⟨1, 1, 42⟩, SegInput.timeout]).1.capNext = true ∧
    (processEventsRun keyTable initState
        [SegInput.ev ⟨1, 1, 42⟩, SegInput.timeout,
         SegInput.ev ⟨1, 1, 35⟩, SegInput.timeout]).2 = ["H"] := by
  decide

/-- Claim C3 (amended): after a shift key-down followed immediately by a
timer expiry with no intervening character, the `capNext` flag is false at
the start of the next scan, provided the buffer was non-empty at the
expiry (an emission occurred); the code resets the flag only on emission,
so from an empty buffer the shift state persists across the expiry. -/
theorem claim_C3_thm (keymap : Nat → Option String) (s : SegState)
    (e : InputEvent) (hv : e.value = 1) (ht : e.type = EV_KEY)
    (hs : isShiftKey (lookupKey keymap e.code) = true)
    (hb : s.barcode ≠ "") :
    (processEventsRun keymap s [SegInput.ev e, SegInput.timeout]).1
      = initState := by
  have hcond : e.value = 1 ∧ e.type = EV_KEY := ⟨hv, ht⟩
  have hlen : 0 < s.barcode.length := (string_length_pos_iff s.barcode).mpr hb
  simp [processEventsRun, processEventsStep, hcond,
    processCharacter_of_shift _ _ hs, hlen, initState]

/-- Witness for C3 (amended): shift then timeout from a state holding "a"
returns the segmenter to the initial state. -/
theorem claim_C3_witness :
    (processEventsRun keyTable ⟨"a", false⟩
        [SegInput.ev ⟨1, 1, 42⟩, SegInput.timeout]).1 = initState :=
  claim_C3_thm keyTable ⟨"a", false⟩ ⟨1, 1, 42⟩ rfl rfl (by decide) (by decide)

/-- Claim C4: a shift key-down capitalizes exactly one following
non-modifier character and then the flag reverts: the key-down sequence
LEFTSHIFT, KEY_H, KEY_I from the initial state accumulates the buffer
"Hi" with the flag consumed, the shift event itself appending the empty
string and setting the flag, H consuming it, and I processed with it
clear. -/
theorem claim_C4_thm :
    processCharacter "KEY_LEFTSHIFT" false = ("", true) ∧
    processCharacter "KEY_H" true = ("H", false) ∧
    processCharacter "KEY_I" false = ("i", false) ∧
    processEventsRun keyTable initState
        [SegInput.ev ⟨1, 1, 42⟩, SegInput.ev ⟨1, 1, 35⟩, SegInput.ev ⟨1, 1, 23⟩]
      = (⟨"Hi", false⟩, []) := by
  decide

/-- Claim C5: every raw event that is not a key-down (action UP or REPEAT,
or kind other than KEY) leaves the segmenter state entirely unchanged —
buffer, flag, and pending timer (no re-arm, no output); in particular one
DOWN of KEY_A followed only by REPEAT events and the timeout yields the
barcode "a". -/
theorem claim_C5_thm :
    (∀ (keymap : Nat → Option String) (s : SegState) (e : InputEvent),
        e.value ≠ 1 ∨ e.type ≠ EV_KEY →
        processEventsStep keymap s (SegInput.ev e) = ⟨s, none, false⟩) ∧
    (processEventsRun keyTable initState
        [SegInput.ev ⟨1, 1, 30⟩, SegInput.ev ⟨2, 1, 30⟩, SegInput.ev ⟨2, 1, 30⟩,
         SegInput.timeout]).2 = ["a"] := by
  constructor
  · intro keymap s e h
    have hcond : ¬ (e.value = 1 ∧ e.type = EV_KEY) := by tauto
    simp [processEventsStep, hcond]
  · decide

/-- Witness for C5: a REPEAT (value 2) of the A key is a complete no-op
for the segmenter. -/
theorem claim_C5_witness :
    processEventsStep keyTable initState (SegInput.ev ⟨2, 1, 30⟩)
      = ⟨initState, none, false⟩ :=
  claim_C5_thm.1 keyTable initState ⟨2, 1, 30⟩ (Or.inl (by decide))

/-- Claim C6: a key-down whose code is absent from the keycode table never
fails or aborts the scan: the placeholder "?" is substituted, passes
through `processCharacter` unchanged (clearing the flag), and a literal
"?" lands in the barcode at the corresponding position. -/
theorem claim_C6_thm (keymap : Nat → Option String) (s : SegState) (c : Nat)
    (hc : keymap c = none) :
    processCharacter "?" s.capNext = ("?", false) ∧
    processEventsStep keymap s (SegInput.ev ⟨1, EV_KEY, c⟩)
      = ⟨⟨s.barcode ++ "?", false⟩, none, true⟩ ∧
    (processEventsRun keyTable initState
        [SegInput.ev ⟨1, 1, 30⟩, SegInput.ev ⟨1, 1, 999⟩, SegInput.ev ⟨1, 1, 48⟩,
         SegInput.timeout]).2 = ["a?b"] := by
  refine ⟨processCharacter_qmark s.capNext, ?_, by decide⟩
  simp [processEventsStep, EV_KEY, lookupKey, hc, processCharacter_qmark]

/-- Witness for C6: code 999 is absent from the concrete table; from the
initial state it contributes a literal "?". -/
theorem claim_C6_witness :
    processCharacter "?" initState.capNext = ("?", false) ∧
    processEventsStep keyTable initState (SegInput.ev ⟨1, EV_KEY, 999⟩)
      = ⟨⟨initState.barcode ++ "?", false⟩, none, true⟩ ∧
    (processEventsRun keyTable initState
        [SegInput.ev ⟨1, 1, 30⟩, SegInput.ev ⟨1, 1, 999⟩, SegInput.ev ⟨1, 1, 48⟩,
         SegInput.timeout]).2 = ["a?b"] :=
  claim_C6_thm keyTable initState 999 (by decide)

/-- Claim C7: `processCharacter` applies exactly the fixed substitution
table to the bare token — space to " ", slash to "/", minus to "-", dot to
".", comma to ",", semicolon (lower-case form, flag clear) to ";", and
SEMICOLON (upper-case form, flag set) to ":" — every other token passes
through unchanged; the key-down sequence KEY_A, KEY_MINUS, KEY_B yields
the barcode "a-b". -/
theorem claim_C7_thm (t : String)
    (ht : t ∉ (["space", "slash", "minus", "dot", "comma", "SEMICOLON",
        "semicolon"] : List String)) :
    substTable "space" = " " ∧ substTable "slash" = "/" ∧
    substTable "minus" = "-" ∧ substTable "dot" = "." ∧
    substTable "comma" = "," ∧ substTable "semicolon" = ";" ∧
    substTable "SEMICOLON" = ":" ∧
    processCharacter "KEY_SEMICOLON" false = (";", false) ∧
    processCharacter "KEY_SEMICOLON" true = (":", false) ∧
    substTable t = t ∧
    (processEventsRun keyTable initState
        [SegInput.ev ⟨1, 1, 30⟩, SegInput.ev ⟨1, 1, 12⟩, SegInput.ev ⟨1, 1, 48⟩,
         SegInput.timeout]).2 = ["a-b"] := by
  simp only [List.mem_cons, List.not_mem_nil, or_false, not_or] at ht
  obtain ⟨h1, h2, h3, h4, h5, h6, h7⟩ := ht
  refine ⟨by decide, by decide, by decide, by decide, by decide, by decide,
    by decide, by decide, by decide, ?_, by decide⟩
  simp [substTable, h1, h2, h3, h4, h5, h6, h7]

/-- Witness for C7: the token "enter" is not in the substitution table and
passes through unchanged. -/
theorem claim_C7_witness :
    substTable "space" = " " ∧ substTable "slash" = "/" ∧
    substTable "minus" = "-" ∧ substTable "dot" = "." ∧
    substTable "comma" = "," ∧ substTable "semicolon" = ";" ∧
    substTable "SEMICOLON" = ":" ∧
    processCharacter "KEY_SEMICOLON" false = (";", false) ∧
    processCharacter "KEY_SEMICOLON" true = (":", false) ∧
    substTable "enter" = "enter" ∧
    (processEventsRun keyTable initState
        [SegInput.ev ⟨1, 1, 30⟩, SegInput.ev ⟨1, 1, 12⟩, SegInput.ev ⟨1, 1, 48⟩,
         SegInput.timeout]).2 = ["a-b"] :=
  claim_C7_thm "enter" (by decide)

/-- Claim C8: round-trip independence of scans — for every raw-event
sequence whose closing timeout emits a barcode, feeding the same sequence
a second time after that timeout produces a second, identical barcode: the
post-emission state behaves exactly like the initial state. -/
theorem claim_C8_thm (keymap : Nat → Option String) (es : List InputEvent)
    (h : (processEventsRun keymap initState
        (es.map SegInput.ev ++ [SegInput.timeout])).2 ≠ []) :
    processEventsRun keymap initState
        ((es.map SegInput.ev ++ [SegInput.timeout])
          ++ (es.map SegInput.ev ++ [SegInput.timeout]))
      = (initState,
         (processEventsRun keymap initState
             (es.map SegInput.ev ++ [SegInput.timeout])).2
           ++ (processEventsRun keymap initState
               (es.map SegInput.ev ++ [SegInput.timeout])).2) := by
  have hev := run_ev_no_out keymap es initState
  by_cases hb : (processEventsRun keymap initState (es.map SegInput.ev)).1.barcode = ""
  · exfalso
    apply h
    rw [run_append, run_single_timeout, if_pos hb]
    simp [hev]
  · have hfst : processEventsRun keymap initState
        (es.map SegInput.ev ++ [SegInput.timeout])
        = (initState,
           [(processEventsRun keymap initState (es.map SegInput.ev)).1.barcode]) := by
      rw [run_append, run_single_timeout, if_neg hb]
      simp [hev]
    rw [run_append, hfst]
    simp [hfst]

/-- Witness for C8: the single key-down of A closed by a timeout, fed
twice, emits "a" twice. -/
theorem claim_C8_witness :
    (processEventsRun keyTable initState
        (([(⟨1, 1, 30⟩ : InputEvent)].map SegInput.ev) ++ [SegInput.timeout])).2 ≠ [] ∧
    processEventsRun keyTable initState
        ((([(⟨1, 1, 30⟩ : InputEvent)].map SegInput.ev) ++ [SegInput.timeout])
          ++ (([(⟨1, 1, 30⟩ : InputEvent)].map SegInput.ev) ++ [SegInput.timeout]))
      = (initState,
         (processEventsRun keyTable initState
             (([(⟨1, 1, 30⟩ : InputEvent)].map SegInput.ev) ++ [SegInput.timeout])).2
           ++ (processEventsRun keyTable initState
               (([(⟨1, 1, 30⟩ : InputEvent)].map SegInput.ev) ++ [SegInput.timeout])).2) :=
  ⟨by decide, claim_C8_thm keyTable [⟨1, 1, 30⟩] (by decide)⟩

/-- Claim C9: for every key string and every incoming flag value,
`processCharacter` returns `nextCapNext = true` exactly when the key
string contains "LEFTSHIFT" or "RIGHTSHIFT" as a substring; the
placeholder "?" always clears the flag, and a second consecutive shift
leaves the flag set (shift is not a toggle). -/
theorem claim_C9_thm (key : String) (b : Bool) :
    ((processCharacter key b).2 = true
        ↔ ("LEFTSHIFT".data <:+: key.data ∨ "RIGHTSHIFT".data <:+: key.data)) ∧
    (processCharacter "?" b).2 = false ∧
    (processCharacter "KEY_RIGHTSHIFT"
        ((processCharacter "KEY_LEFTSHIFT" b).2)).2 = true := by
  refine ⟨?_, ?_, ?_⟩
  · by_cases hs : isShiftKey key = true
    · have hd : "LEFTSHIFT".data <:+: key.data ∨ "RIGHTSHIFT".data <:+: key.data := by
        simpa [isShiftKey, containsStr] using hs
      simp [processCharacter, hs, hd]
    · have hd : ¬ ("LEFTSHIFT".data <:+: key.data ∨ "RIGHTSHIFT".data <:+: key.data) := by
        simpa [isShiftKey, containsStr] using hs
      cases b <;> simp [processCharacter, hs, hd]
  · cases b <;> decide
  · cases b <;> decide

/-- Claim C10: a symbolic key whose bare token is multi-character and not
in the substitution table (for example KEY_ENTER, token "enter") has its
entire token appended to the buffer, so a single key-down can contribute
more than one character to the emitted barcode. -/
theorem claim_C10_thm (keymap : Nat → Option String) (s : SegState)
    (e : InputEvent) (hv : e.value = 1) (ht : e.type = EV_KEY) :
    processCharacter "KEY_ENTER" false = ("enter", false) ∧
    (processEventsStep keymap s (SegInput.ev e)).state.barcode
      = s.barcode ++ (processCharacter (lookupKey keymap e.code) s.capNext).1 ∧
    (processEventsRun keyTable initState
        [SegInput.ev ⟨1, 1, 28⟩, SegInput.timeout]).2 = ["enter"] := by
  refine ⟨by decide, ?_, by decide⟩
  have hcond : e.value = 1 ∧ e.type = EV_KEY := ⟨hv, ht⟩
  simp [processEventsStep, hcond]

/-- Witness for C10: the ENTER key-down from the initial state appends the
whole five-character token "enter", which the following timeout emits. -/
theorem claim_C10_witness :
    processCharacter "KEY_ENTER" false = ("enter", false) ∧
    (processEventsStep keyTable initState (SegInput.ev ⟨1, 1, 28⟩)).state.barcode
      = initState.barcode
        ++ (processCharacter (lookupKey keyTable 28) initState.capNext).1 ∧
    (processEventsRun keyTable initState
        [SegInput.ev ⟨1, 1, 28⟩, SegInput.timeout]).2 = ["enter"] :=
  claim_C10_thm keyTable initState ⟨1, 1, 28⟩ rfl rfl

end USBScanner
